import Mathlib

/-!
Verification development for the markup-to-docx hotkey tool
(src/markup-docx.py, the current revision, and src/main.py, an earlier
revision).  Text is embedded as `List Char`; the Word automation surface,
the clipboard, the PATH lookup and the pandoc subprocess are external
collaborators and are embedded as explicit environment records plus a
small document-state machine.  Pipeline functions additionally return the
list of observable effects they perform, in order.
-/

/-! ## Python string primitives used by the source -/

/-- The ASCII whitespace characters stripped by Python `str.strip()`.
(The full Python set also strips rarer Unicode spaces; the program only
ever meets the ASCII ones, and every claim below concerns those.) -/
def pyWhitespace (c : Char) : Bool :=
  c = ' ' || c = '\t' || c = '\n' || c = '\r' || c = '\x0b' || c = '\x0c'

/-- Python `str.strip()`: drop leading and trailing whitespace. -/
def pyStrip (l : List Char) : List Char :=
  ((l.dropWhile pyWhitespace).reverse.dropWhile pyWhitespace).reverse

/-- Python `str.find(c)` for a single-character needle: index of the first
occurrence, `-1` when absent. -/
def pyFind (l : List Char) (c : Char) : Int :=
  match l with
  | [] => -1
  | x :: xs =>
    if x = c then 0
    else if pyFind xs c = -1 then -1 else pyFind xs c + 1

/-- Python `str.replace(a, b)` for single characters `a`, `b`. -/
def repl (a b : Char) (l : List Char) : List Char :=
  l.map (fun c => if c = a then b else c)

/-- Python `text.replace("\r\n", "\n")`: fold each CR-LF pair, scanning
left to right over non-overlapping occurrences. -/
def replaceCRLF : List Char → List Char
  | [] => []
  | [c] => [c]
  | c1 :: c2 :: rest =>
    if c1 = '\r' ∧ c2 = '\n' then '\n' :: replaceCRLF rest
    else c1 :: replaceCRLF (c2 :: rest)

/-! ## Lemmas about the string primitives -/

theorem pyFind_neg_one_or_nonneg (c : Char) : ∀ l, pyFind l c = -1 ∨ 0 ≤ pyFind l c := by
  intro l
  induction l with
  | nil => left; rfl
  | cons x xs ih =>
    by_cases hx : x = c
    · right; simp [pyFind, hx]
    · by_cases hr : pyFind xs c = -1
      · left; simp [pyFind, hx, hr]
      · right
        rcases ih with h | h
        · exact absurd h hr
        · simp only [pyFind, hx, if_false, hr, if_neg, ite_false]
          omega

theorem pyFind_eq_neg_one_iff (c : Char) : ∀ l, pyFind l c = -1 ↔ c ∉ l := by
  intro l
  induction l with
  | nil => simp [pyFind]
  | cons x xs ih =>
    by_cases hx : x = c
    · simp [pyFind, hx]
    · by_cases hr : pyFind xs c = -1
      · simp [pyFind, hx, hr, List.mem_cons, ih.mp hr]
        exact fun h => hx h.symm
      · have hnn : 0 ≤ pyFind xs c := (pyFind_neg_one_or_nonneg c xs).resolve_left hr
        have hmem : c ∈ xs := by
          by_contra hcm
          exact hr (ih.mpr hcm)
        simp only [pyFind, hx, ite_false, hr, List.mem_cons, hmem, or_true,
          not_true_eq_false, iff_false]
        omega

theorem mem_of_mem_pyStrip {x : Char} {l : List Char} (h : x ∈ pyStrip l) : x ∈ l := by
  unfold pyStrip at h
  rw [List.mem_reverse] at h
  have h1 := (List.dropWhile_sublist (l := (l.dropWhile pyWhitespace).reverse)
    (p := pyWhitespace)).mem h
  rw [List.mem_reverse] at h1
  exact (List.dropWhile_sublist (l := l) (p := pyWhitespace)).mem h1

theorem mem_repl {x a b : Char} {l : List Char} (h : x ∈ repl a b l) : x ∈ l ∨ x = b := by
  unfold repl at h
  rw [List.mem_map] at h
  obtain ⟨c, hc, hcx⟩ := h
  by_cases hca : c = a
  · right; simp [hca] at hcx; exact hcx.symm
  · left; simp [hca] at hcx; exact hcx ▸ hc

theorem not_mem_repl_self {a b : Char} (hba : b ≠ a) (l : List Char) : a ∉ repl a b l := by
  intro h
  unfold repl at h
  rw [List.mem_map] at h
  obtain ⟨c, _, hcx⟩ := h
  by_cases hca : c = a
  · simp [hca] at hcx; exact hba hcx
  · simp [hca] at hcx

theorem not_mem_repl {x a b : Char} {l : List Char} (hx : x ∉ l) (hb : x ≠ b) :
    x ∉ repl a b l := by
  intro h
  rcases mem_repl h with h | h
  · exact hx h
  · exact hb h

theorem repl_eq_self {a b : Char} {l : List Char} (h : a ∉ l) : repl a b l = l := by
  unfold repl
  induction l with
  | nil => rfl
  | cons c rest ih =>
    have hca : c ≠ a := fun e => h (e ▸ List.mem_cons_self c rest)
    have hrest : a ∉ rest := fun e => h (List.mem_cons_of_mem c e)
    simp [hca, ih hrest]

theorem mem_of_mem_replaceCRLF {x : Char} : ∀ {l : List Char}, x ∈ replaceCRLF l → x ∈ l := by
  intro l
  induction l using replaceCRLF.induct with
  | case1 => intro h; exact absurd h (List.not_mem_nil x)
  | case2 c => intro h; exact h
  | case3 c1 c2 rest hpair ih =>
    intro h
    obtain ⟨h1, h2⟩ := hpair
    rw [h1, h2]
    rw [replaceCRLF, if_pos ⟨h1, h2⟩] at h
    rcases List.mem_cons.mp h with h | h
    · exact h ▸ List.mem_cons_of_mem _ (List.mem_cons_self _ _)
    · exact List.mem_cons_of_mem _ (List.mem_cons_of_mem _ (ih h))
  | case4 c1 c2 rest hpair ih =>
    intro h
    rw [replaceCRLF, if_neg hpair] at h
    rcases List.mem_cons.mp h with h | h
    · exact h ▸ List.mem_cons_self _ _
    · exact List.mem_cons_of_mem _ (ih h)

theorem replaceCRLF_eq_self : ∀ {l : List Char}, '\r' ∉ l → replaceCRLF l = l := by
  intro l
  induction l using replaceCRLF.induct with
  | case1 => intro _; rfl
  | case2 c => intro _; rfl
  | case3 c1 c2 rest hpair ih =>
    intro h
    exact absurd (hpair.1 ▸ List.mem_cons_self c1 (c2 :: rest)) h
  | case4 c1 c2 rest hpair ih =>
    intro h
    have : '\r' ∉ c2 :: rest := fun e => h (List.mem_cons_of_mem c1 e)
    rw [replaceCRLF, if_neg hpair, ih this]

theorem filter_replaceCRLF {p : Char → Bool} (hp : p '\r' = false) :
    ∀ l : List Char, (replaceCRLF l).filter p = l.filter p := by
  intro l
  induction l using replaceCRLF.induct with
  | case1 => rfl
  | case2 c => rfl
  | case3 c1 c2 rest hpair ih =>
    obtain ⟨h1, h2⟩ := hpair
    subst h1; subst h2
    rw [replaceCRLF, if_pos ⟨rfl, rfl⟩]
    simp [List.filter_cons, hp, ih]
  | case4 c1 c2 rest hpair ih =>
    rw [replaceCRLF, if_neg hpair]
    simp only [List.filter_cons, ih]

theorem filter_repl {p : Char → Bool} {a b : Char} (ha : p a = false) (hb : p b = false)
    (l : List Char) : (repl a b l).filter p = l.filter p := by
  unfold repl
  induction l with
  | nil => rfl
  | cons c rest ih =>
    by_cases hca : c = a
    · subst hca
      simp [List.filter_cons, ha, hb, ih]
    · simp [List.filter_cons, hca, ih]

/-! ## Text Normalizer: `text_filter` (src/markup-docx.py lines 113-123)

The source reads the `force_straight_quotes` flag from the parsed global
arguments; here it is an explicit parameter. -/

def text_filter (force_straight_quotes : Bool) (text : List Char) : List Char :=
  -- Normalize line endings: replace("\r\n","\n").replace("\r","\n")
  let text := repl '\r' '\n' (replaceCRLF text)
  -- Soft line break (Shift+Enter in Word) '\x0b' becomes '\n'
  let text := repl '\x0b' '\n' text
  if force_straight_quotes then
    repl '’' '\x27' (repl '‘' '\x27'
      (repl '”' '\x22' (repl '“' '\x22' text)))
  else text

/-! ## Source Acquirer (src/markup-docx.py lines 89-110)

`get_selection_text` reads `word.Selection.Text`; its argument here is that
text.  The selection-shrink side effect at lines 97-99 mutates the host
editor's selection end and does not change the returned pair, so it is not
part of this embedding.  `get_clipboard_text` reads the clipboard text. -/

def get_selection_text (text : List Char) : Option (List Char × Bool) :=
  if pyStrip text = [] then none
  else
    -- inline_block = text.strip().find("\r") == -1
    some (text, pyFind (pyStrip text) '\r' == -1)

def get_clipboard_text (text : List Char) : Option (List Char × Bool) :=
  if pyStrip text = [] then none
  else
    -- inline_block = text.strip().find("\n") == -1
    some (text, pyFind (pyStrip text) '\n' == -1)

/-- The `get_selection_text(word) or get_clipboard_text() or (None, False)`
fallback chain in `on_triggered` (both revisions): a returned pair is
truthy, `None` falls through. -/
def acquire (selText clipText : List Char) : Option (List Char × Bool) :=
  match get_selection_text selText with
  | some r => some r
  | none => get_clipboard_text clipText

/-! ## Claims C4, C5, C9 -/

theorem pyFind_beq_neg_one {l : List Char} {c : Char} :
    (pyFind l c == -1) = true ↔ c ∉ l := by
  rw [beq_iff_eq]
  exact pyFind_eq_neg_one_iff c l

/-- C4 counterexample: the text "abc\r" contains the selection-side
paragraph separator '\r', yet the classification returns `true` (inline),
because the source first strips the text and '\r' is whitespace. -/
theorem classify_inline_counterexample :
    '\r' ∈ ['a', 'b', 'c', '\r'] ∧
      get_selection_text ['a', 'b', 'c', '\r'] = some (['a', 'b', 'c', '\r'], true) := by
  constructor
  · decide
  · decide

/-- C4 (amended): classification is computed on the stripped text.  Any
text with no '\r' at all classifies inline; any text whose stripped form
still contains a '\r' classifies as block; separators stripped as leading
or trailing whitespace do not count.  The clipboard classifier is the same
with '\n' as the separator. -/
theorem classify_inline_amended :
    (∀ t : List Char, '\r' ∉ t → pyStrip t ≠ [] →
      get_selection_text t = some (t, true)) ∧
    (∀ t : List Char, '\r' ∈ pyStrip t →
      get_selection_text t = some (t, false)) ∧
    (∀ t : List Char, '\n' ∉ t → pyStrip t ≠ [] →
      get_clipboard_text t = some (t, true)) ∧
    (∀ t : List Char, '\n' ∈ pyStrip t →
      get_clipboard_text t = some (t, false)) := by
  refine ⟨fun t h hne => ?_, fun t h => ?_, fun t h hne => ?_, fun t h => ?_⟩
  · have : '\r' ∉ pyStrip t := fun hm => h (mem_of_mem_pyStrip hm)
    rw [get_selection_text, if_neg hne]
    simp [pyFind_beq_neg_one.mpr this]
  · have hne : pyStrip t ≠ [] := List.ne_nil_of_mem h
    rw [get_selection_text, if_neg hne]
    have : ¬ (pyFind (pyStrip t) '\r' == -1) = true := fun hb =>
      (pyFind_beq_neg_one.mp hb) h
    simp only [Option.some.injEq, Prod.mk.injEq, true_and]
    exact Bool.eq_false_iff.mpr (fun hb => this hb)
  · have : '\n' ∉ pyStrip t := fun hm => h (mem_of_mem_pyStrip hm)
    rw [get_clipboard_text, if_neg hne]
    simp [pyFind_beq_neg_one.mpr this]
  · have hne : pyStrip t ≠ [] := List.ne_nil_of_mem h
    rw [get_clipboard_text, if_neg hne]
    have : ¬ (pyFind (pyStrip t) '\n' == -1) = true := fun hb =>
      (pyFind_beq_neg_one.mp hb) h
    simp only [Option.some.injEq, Prod.mk.injEq, true_and]
    exact Bool.eq_false_iff.mpr (fun hb => this hb)

theorem classify_inline_amended_witness :
    get_selection_text ['x'] = some (['x'], true) ∧
    get_selection_text ['x', '\r', 'y'] = some (['x', '\r', 'y'], false) ∧
    get_clipboard_text ['x'] = some (['x'], true) ∧
    get_clipboard_text ['x', '\n', 'y'] = some (['x', '\n', 'y'], false) :=
  ⟨classify_inline_amended.1 ['x'] (by decide) (by decide),
   classify_inline_amended.2.1 ['x', '\r', 'y'] (by decide),
   classify_inline_amended.2.2.1 ['x'] (by decide) (by decide),
   classify_inline_amended.2.2.2 ['x', '\n', 'y'] (by decide)⟩

/-- Characters the claim C9 calls typographic (curly) quotes. -/
def isCurlyQuote (c : Char) : Bool :=
  c = '“' || c = '”' || c = '‘' || c = '’'

theorem text_filter_no_cr (force : Bool) (t : List Char) :
    '\r' ∉ text_filter force t := by
  unfold text_filter
  have h1 : '\r' ∉ repl '\r' '\n' (replaceCRLF t) :=
    not_mem_repl_self (by decide) _
  have h2 : '\r' ∉ repl '\x0b' '\n' (repl '\r' '\n' (replaceCRLF t)) :=
    not_mem_repl h1 (by decide)
  cases force with
  | false => simpa using h2
  | true =>
    simp only [ite_true]
    exact not_mem_repl (not_mem_repl (not_mem_repl (not_mem_repl h2
      (by decide)) (by decide)) (by decide)) (by decide)

theorem text_filter_no_vt (force : Bool) (t : List Char) :
    '\x0b' ∉ text_filter force t := by
  unfold text_filter
  have h2 : '\x0b' ∉ repl '\x0b' '\n' (repl '\r' '\n' (replaceCRLF t)) :=
    not_mem_repl_self (by decide) _
  cases force with
  | false => simpa using h2
  | true =>
    simp only [ite_true]
    exact not_mem_repl (not_mem_repl (not_mem_repl (not_mem_repl h2
      (by decide)) (by decide)) (by decide)) (by decide)

theorem text_filter_true_no_curly (t : List Char) {c : Char}
    (hc : isCurlyQuote c = true) : c ∉ text_filter true t := by
  unfold text_filter
  simp only [ite_true]
  set u := repl '\x0b' '\n' (repl '\r' '\n' (replaceCRLF t)) with hu
  have hq : c = '“' ∨ c = '”' ∨ c = '‘' ∨ c = '’' := by
    unfold isCurlyQuote at hc
    rcases Bool.or_eq_true_iff.mp hc with h | h
    · rcases Bool.or_eq_true_iff.mp h with h | h
      · rcases Bool.or_eq_true_iff.mp h with h | h
        · exact Or.inl (by exact_mod_cast of_decide_eq_true h)
        · exact Or.inr (Or.inl (by exact_mod_cast of_decide_eq_true h))
      · exact Or.inr (Or.inr (Or.inl (by exact_mod_cast of_decide_eq_true h)))
    · exact Or.inr (Or.inr (Or.inr (by exact_mod_cast of_decide_eq_true h)))
  rcases hq with h | h | h | h <;> subst h
  · exact not_mem_repl (not_mem_repl (not_mem_repl (not_mem_repl_self
      (by decide) u) (by decide)) (by decide)) (by decide)
  · exact not_mem_repl (not_mem_repl (not_mem_repl_self (by decide) _)
      (by decide)) (by decide)
  · exact not_mem_repl (not_mem_repl_self (by decide) _) (by decide)
  · exact not_mem_repl_self (by decide) _

/-- C5: `text_filter` (the Text Normalizer) is idempotent for both values
of the force-straight-quotes option. -/
theorem text_filter_idempotent (force : Bool) (t : List Char) :
    text_filter force (text_filter force t) = text_filter force t := by
  have hr := text_filter_no_cr force t
  have hv := text_filter_no_vt force t
  set u := text_filter force t with hu
  cases force with
  | false =>
    show text_filter false u = u
    unfold text_filter
    simp only [Bool.false_eq_true, if_false]
    rw [replaceCRLF_eq_self hr, repl_eq_self hr, repl_eq_self hv]
  | true =>
    have h1 : '“' ∉ u := text_filter_true_no_curly t (by decide)
    have h2 : '”' ∉ u := text_filter_true_no_curly t (by decide)
    have h3 : '‘' ∉ u := text_filter_true_no_curly t (by decide)
    have h4 : '’' ∉ u := text_filter_true_no_curly t (by decide)
    show text_filter true u = u
    unfold text_filter
    simp only [ite_true]
    rw [replaceCRLF_eq_self hr, repl_eq_self hr, repl_eq_self hv,
      repl_eq_self h1, repl_eq_self h2, repl_eq_self h3, repl_eq_self h4]

/-- C9: with the force-straight-quotes flag off, every typographic quote
character passes through `text_filter` unchanged (the subsequence of curly
quote characters is preserved exactly); with the flag on, no curly quote
character survives. -/
theorem quote_folding_only_under_flag :
    (∀ t : List Char,
      (text_filter false t).filter isCurlyQuote = t.filter isCurlyQuote) ∧
    (∀ t : List Char, (text_filter true t).filter isCurlyQuote = []) := by
  constructor
  · intro t
    show (repl '\x0b' '\n' (repl '\r' '\n' (replaceCRLF t))).filter isCurlyQuote
      = t.filter isCurlyQuote
    rw [filter_repl (by decide) (by decide), filter_repl (by decide) (by decide),
      filter_replaceCRLF (by decide)]
  · intro t
    rw [List.filter_eq_nil_iff]
    intro c hc hcur
    exact absurd hc (text_filter_true_no_curly t hcur)

/-! ## Document Splicer state machine (src/markup-docx.py lines 159-175)

The Word `Selection` automation object is embedded as a zipper over the
document text: `before` is the text left of the insertion point, `after`
the text right of it (the selection is collapsed when the splicer runs),
and `style` the style at the insertion point, an opaque identifier. -/

structure DocState where
  before : List Char
  after : List Char
  style : Nat
deriving DecidableEq, Repr

/-- A converted fragment: the contents of the pandoc output file, plus the
style that `Selection.InsertFile` leaves at the insertion point (inserting
a foreign fragment can reset local formatting, which is why the source
snapshots and restores the style). -/
structure Frag where
  text : List Char
  style : Nat
deriving DecidableEq, Repr

/-- `selection.Style()`: read the style at the insertion point. -/
def selStyle (st : DocState) : Nat := st.style

/-- `selection.InsertFile(path)`: insert the fragment contents at the
(collapsed) selection, leaving the insertion point at the end of the
inserted content. -/
def selInsertFile (st : DocState) (frag : Frag) : DocState :=
  { st with before := st.before ++ frag.text, style := frag.style }

/-- `selection.MoveLeft()`: move the insertion point one character left
(a no-op at the start of the document). -/
def selMoveLeft (st : DocState) : DocState :=
  match st.before.getLast? with
  | none => st
  | some c => { st with before := st.before.dropLast, after := c :: st.after }

/-- `selection.Text` of a collapsed selection: the single character right
of the insertion point (empty at the end of the document). -/
def selText (st : DocState) : List Char :=
  match st.after with
  | [] => []
  | c :: _ => [c]

/-- `selection.Delete()`: delete the character right of the insertion
point. -/
def selDelete (st : DocState) : DocState :=
  { st with after := st.after.tail }

/-- `selection.Style = s`: set the style at the insertion point. -/
def selSetStyle (st : DocState) (s : Nat) : DocState :=
  { st with style := s }

inductive SpliceError where
  | unexpectedDocumentState (found : List Char)
deriving DecidableEq, Repr

/-- src/markup-docx.py `insert_into_docx` (lines 159-175); the body of
src/main.py `insert_into_docx` (lines 109-125) is the same modulo prints.
A raised `AssertionError` does not roll the document back, so the result
is the document state reached so far paired with the optional error.  The
source snapshots the style only when `inline_block` is set; the snapshot
is a pure read, so it is hoisted unconditionally here. -/
def insert_into_docx (st : DocState) (frag : Frag) (inline_block : Bool) :
    DocState × Option SpliceError :=
  let style := selStyle st
  let st1 := selInsertFile st frag
  if inline_block then
    -- Remove additional line break at the end of the inserted text
    let st2 := selMoveLeft st1
    let t := selText st2
    if t = ['\r'] then
      let st3 := selDelete st2
      (selSetStyle st3 style, none)
    else
      -- assert text == "\r" fails: AssertionError propagates
      (st2, some (.unexpectedDocumentState t))
  else (st1, none)

/-- The full text of the document, ignoring the insertion point. -/
def docText (st : DocState) : List Char := st.before ++ st.after

/-! ## Claim C1 -/

/-- C1: an inline splice inserts the fragment, moves the insertion point
back one character, checks that the selected character is exactly the
paragraph break '\r', deletes it and restores the snapshotted style (first
conjunct: the success equation; third conjunct: success forces the
character examined to be '\r').  A block splice inserts the fragment and
performs no repair and no style restoration (second conjunct). -/
theorem splice_inline_repair :
    (∀ (st : DocState) (frag : Frag),
      (st.before ++ frag.text).getLast? = some '\r' →
      insert_into_docx st frag true =
        ({ before := (st.before ++ frag.text).dropLast, after := st.after,
           style := st.style }, none)) ∧
    (∀ (st : DocState) (frag : Frag),
      insert_into_docx st frag false =
        ({ before := st.before ++ frag.text, after := st.after,
           style := frag.style }, none)) ∧
    (∀ (st : DocState) (frag : Frag),
      st.before ++ frag.text ≠ [] →
      (insert_into_docx st frag true).2 = none →
      (st.before ++ frag.text).getLast? = some '\r') := by
  refine ⟨fun st frag h => ?_, fun st frag => rfl, fun st frag hne h => ?_⟩
  · unfold insert_into_docx selStyle selInsertFile selMoveLeft selText selDelete selSetStyle
    simp only [h, ite_true]
    simp
  · unfold insert_into_docx selStyle selInsertFile selMoveLeft selText selDelete selSetStyle at h
    rcases hlast : (st.before ++ frag.text).getLast? with _ | c
    · exact absurd (List.getLast?_eq_none_iff.mp hlast) hne
    · simp only [hlast] at h
      by_cases hc : c = '\r'
      · rw [hc]
      · simp only [ite_true] at h
        rw [if_neg (by simp [hc])] at h
        exact absurd h (by simp)

theorem splice_inline_repair_witness :
    insert_into_docx { before := ['a'], after := ['z'], style := 4 }
        { text := ['x', '\r'], style := 9 } true =
      ({ before := ['a', 'x'], after := ['z'], style := 4 }, none) ∧
    insert_into_docx { before := ['a'], after := ['z'], style := 4 }
        { text := ['x', '\r'], style := 9 } false =
      ({ before := ['a', 'x', '\r'], after := ['z'], style := 9 }, none) := by
  constructor
  · rw [splice_inline_repair.1 { before := ['a'], after := ['z'], style := 4 }
      { text := ['x', '\r'], style := 9 } (by decide)]
    rfl
  · rw [splice_inline_repair.2.1 { before := ['a'], after := ['z'], style := 4 }
      { text := ['x', '\r'], style := 9 }]
    rfl

/-! ## Foreground Session Guard: `connect_to_word` (src/markup-docx.py 178-192) -/

/-- Python `args.title.format(doc=name)` for the patterns this program
uses: every occurrence of the `\x7bdoc\x7d` placeholder is replaced by the
document display name.  (The source never passes other replacement fields
or brace escapes.) -/
def formatDoc : List Char → List Char → List Char
  | [], _ => []
  | '\x7b' :: 'd' :: 'o' :: 'c' :: '\x7d' :: rest, name =>
    name ++ formatDoc rest name
  | c :: rest, name => c :: formatDoc rest name

inductive GuardError where
  | applicationNotRunning
  | wrongForegroundWindow (title expected : List Char)
deriving DecidableEq, Repr

/-- The collaborator state `connect_to_word` reads: whether
`GetObject("Word.Application")` plus `ActiveDocument` succeed, the active
document's display name (`doc.Name`), and `GetWindowText(hwnd)` for the
foreground window handle captured at trigger time. -/
structure GuardEnv where
  wordAvailable : Bool
  docName : List Char
  foregroundTitle : List Char
deriving DecidableEq, Repr

/-- src/markup-docx.py `connect_to_word` (lines 178-192).  The title
pattern comes from the parsed arguments (never `None` after startup). -/
def connect_to_word (titlePattern : List Char) (env : GuardEnv) :
    Except GuardError Unit :=
  if env.wordAvailable = false then
    -- GetObject / ActiveDocument raised: "Please open a Word document."
    .error .applicationNotRunning
  else
    let expected_title := formatDoc titlePattern env.docName
    if env.foregroundTitle = expected_title then .ok ()
    else .error (.wrongForegroundWindow env.foregroundTitle expected_title)

/-- C6: the guard compares the foreground title against the pattern with
the document name substituted for the placeholder using exact string
equality, failing with `wrongForegroundWindow` on any inequality; it
rejects "Report.docx - Notepad", rejects the strict superstring
"Report.docx - Word - extra" (so no prefix/substring matching), and
accepts "Report.docx - Word" for pattern "\x7bdoc\x7d - Word" with
document name "Report.docx". -/
theorem guard_title_exact_match :
    (∀ (pat : List Char) (env : GuardEnv), env.wordAvailable = true →
      (connect_to_word pat env = .ok () ↔
        env.foregroundTitle = formatDoc pat env.docName)) ∧
    (∀ (pat : List Char) (env : GuardEnv), env.wordAvailable = true →
      env.foregroundTitle ≠ formatDoc pat env.docName →
      connect_to_word pat env =
        .error (.wrongForegroundWindow env.foregroundTitle
          (formatDoc pat env.docName))) ∧
    connect_to_word ("\x7bdoc\x7d - Word".toList)
      { wordAvailable := true, docName := "Report.docx".toList,
        foregroundTitle := "Report.docx - Notepad".toList } =
      .error (.wrongForegroundWindow ("Report.docx - Notepad".toList)
        ("Report.docx - Word".toList)) ∧
    connect_to_word ("\x7bdoc\x7d - Word".toList)
      { wordAvailable := true, docName := "Report.docx".toList,
        foregroundTitle := "Report.docx - Word - extra".toList } =
      .error (.wrongForegroundWindow ("Report.docx - Word - extra".toList)
        ("Report.docx - Word".toList)) ∧
    connect_to_word ("\x7bdoc\x7d - Word".toList)
      { wordAvailable := true, docName := "Report.docx".toList,
        foregroundTitle := "Report.docx - Word".toList } = .ok () := by
  refine ⟨fun pat env hw => ?_, fun pat env hw hne => ?_, by rfl, by rfl, by rfl⟩
  · unfold connect_to_word
    rw [hw]
    by_cases h : env.foregroundTitle = formatDoc pat env.docName
    · simp [h]
    · simp [h]
  · unfold connect_to_word
    rw [hw]
    simp [hne]

theorem guard_title_exact_match_witness :
    (connect_to_word ("\x7bdoc\x7d - Word".toList)
      { wordAvailable := true, docName := "Report.docx".toList,
        foregroundTitle := "Report.docx - Word".toList } = .ok () ↔
      "Report.docx - Word".toList =
        formatDoc ("\x7bdoc\x7d - Word".toList) ("Report.docx".toList)) ∧
    connect_to_word ("\x7bdoc\x7d - Word".toList)
      { wordAvailable := true, docName := "Report.docx".toList,
        foregroundTitle := "x".toList } =
      .error (.wrongForegroundWindow ("x".toList)
        (formatDoc ("\x7bdoc\x7d - Word".toList) ("Report.docx".toList))) :=
  ⟨guard_title_exact_match.1 ("\x7bdoc\x7d - Word".toList)
      { wordAvailable := true, docName := "Report.docx".toList,
        foregroundTitle := "Report.docx - Word".toList } (by decide),
   guard_title_exact_match.2.1 ("\x7bdoc\x7d - Word".toList)
      { wordAvailable := true, docName := "Report.docx".toList,
        foregroundTitle := "x".toList } (by decide) (by decide)⟩

/-! ## Converter Invoker (src/markup-docx.py lines 69-156) -/

/-- The closed set of source formats after startup normalization
("md" is rewritten to "markdown_mmd" before any conversion runs). -/
inductive FromFormat where
  | typst
  | markdown_mmd
  | html
deriving DecidableEq, Repr

/-- `ext_from_format` (src/markup-docx.py lines 69-74 and src/main.py
lines 30-35): the staging file extension for a source format. -/
def ext_from_format : FromFormat → List Char
  | .typst => "typ".toList
  | .markdown_mmd => "md".toList
  | .html => "html".toList

/-- Collaborator state read by the converter invoker: whether `pandoc.exe`
is locatable on PATH (`is_pandoc_in_path`, which scans the PATH
directories with `os.path.isfile`), and the exit code and captured output
streams of the pandoc subprocess. -/
structure PandocEnv where
  inPath : Bool
  exitCode : Int
  stdout : List Char
  stderr : List Char
deriving DecidableEq, Repr

/-- `is_pandoc_in_path` (src/markup-docx.py lines 77-86, identical in
src/main.py): abstracts the PATH scan to the collaborator flag. -/
def is_pandoc_in_path (env : PandocEnv) : Bool := env.inPath

/-- Observable effects of a pipeline run, in order. -/
inductive Event where
  | writeFile (path : List Char) (content : List Char)
  | runPandoc
  | insertFileEvt
  | copyToDownloads
  | removeScratch
  | messageBox (msg : List Char)
deriving DecidableEq, Repr

inductive ConvError where
  | converterUnavailable
  | conversionFailed (diagnostics : List Char)
deriving DecidableEq, Repr

/-- src/markup-docx.py `call_pandoc` (lines 126-143): check PATH, run the
subprocess with captured output, and on a nonzero exit status raise an
exception carrying `result.stdout + result.stderr`.  Returns the events
performed and the error, if any. -/
def call_pandoc (env : PandocEnv) : List Event × Option ConvError :=
  if is_pandoc_in_path env = false then
    ([], some .converterUnavailable)
  else if env.exitCode ≠ 0 then
    ([.runPandoc], some (.conversionFailed (env.stdout ++ env.stderr)))
  else ([.runPandoc], none)

/-- The staging source file name inside the scratch directory:
`"source." + ext`. -/
def sourceName (f : FromFormat) : List Char := "source.".toList ++ ext_from_format f

/-- The output file name inside the scratch directory. -/
def docxName : List Char := "temp.docx".toList

/-- src/markup-docx.py `convert_to_docx` (lines 146-156): writes the
staging source file, then calls `call_pandoc`, and returns the output
path.  Note the PATH check happens inside `call_pandoc`, after the staging
write. -/
def convert_to_docx (f : FromFormat) (env : PandocEnv) (text : List Char) :
    List Event × Except ConvError (List Char) :=
  let src := sourceName f
  let (pEvs, pErr) := call_pandoc env
  ([.writeFile src text] ++ pEvs,
    match pErr with
    | some e => .error e
    | none => .ok docxName)

/-- src/main.py `call_pandoc` (lines 77-90): check PATH, run `os.system`
(no output capture), and on a nonzero status raise an exception with a
fixed message naming the two paths. -/
def main_call_pandoc (env : PandocEnv) (input_file output_file : List Char) :
    List Event × Option ConvError :=
  if is_pandoc_in_path env = false then
    ([], some .converterUnavailable)
  else if env.exitCode ≠ 0 then
    ([.runPandoc], some (.conversionFailed
      ("Failed to convert ".toList ++ input_file ++ " to ".toList ++ output_file)))
  else ([.runPandoc], none)

/-- src/main.py `convert_to_docx` (lines 93-106): checks the PATH *before*
creating the scratch directory or writing anything, then writes the
staging file, runs pandoc, and on success invokes the
`insert_into_word` continuation inside the scratch-directory scope. -/
def main_convert_to_docx (f : FromFormat) (env : PandocEnv) (text : List Char)
    (k : List Char → List Event × Option SpliceError) :
    List Event × Except ConvError (Option SpliceError) :=
  if is_pandoc_in_path env = false then
    ([], .error .converterUnavailable)
  else
    let src := sourceName f
    let (pEvs, pErr) := main_call_pandoc env src docxName
    match pErr with
    | some e => ([.writeFile src text] ++ pEvs ++ [.removeScratch], .error e)
    | none =>
      let (kEvs, sErr) := k docxName
      ([.writeFile src text] ++ pEvs ++ kEvs ++ [.removeScratch], .ok sErr)

/-! ## Claim C3 -/

/-- C3 counterexample: in src/markup-docx.py, with pandoc absent from the
PATH, `convert_to_docx` does fail with ConverterUnavailable — but the
staging source file has already been written to the scratch directory
when it fails, contradicting "before writing any files". -/
theorem converter_unavailable_counterexample :
    (convert_to_docx .typst
        { inPath := false, exitCode := 0, stdout := [], stderr := [] } ['x']).2 =
      .error .converterUnavailable ∧
    Event.writeFile (sourceName .typst) ['x'] ∈
      (convert_to_docx .typst
        { inPath := false, exitCode := 0, stdout := [], stderr := [] } ['x']).1 := by
  constructor
  · rfl
  · simp [convert_to_docx, call_pandoc, is_pandoc_in_path]

/-- C3 (amended): when pandoc is not locatable, the invoker fails with
ConverterUnavailable and never runs the converter subprocess; in
src/main.py the check precedes any file write (no effect at all is
performed), but in src/markup-docx.py the staging source file is written
first and the failure follows it. -/
theorem converter_unavailable_amended :
    (∀ (f : FromFormat) (env : PandocEnv) (text : List Char),
      is_pandoc_in_path env = false →
      (convert_to_docx f env text).2 = .error .converterUnavailable ∧
      (convert_to_docx f env text).1 = [.writeFile (sourceName f) text] ∧
      Event.runPandoc ∉ (convert_to_docx f env text).1) ∧
    (∀ (f : FromFormat) (env : PandocEnv) (text : List Char)
        (k : List Char → List Event × Option SpliceError),
      is_pandoc_in_path env = false →
      main_convert_to_docx f env text k = ([], .error .converterUnavailable)) := by
  constructor
  · intro f env text h
    refine ⟨?_, ?_, ?_⟩ <;>
      simp [convert_to_docx, call_pandoc, h]
  · intro f env text k h
    simp [main_convert_to_docx, h]

theorem converter_unavailable_amended_witness :
    (convert_to_docx .typst
        { inPath := false, exitCode := 0, stdout := [], stderr := [] } ['x']).1 =
      [.writeFile (sourceName .typst) ['x']] ∧
    main_convert_to_docx .typst
        { inPath := false, exitCode := 0, stdout := [], stderr := [] } ['x']
        (fun _ => ([], none)) =
      ([], .error .converterUnavailable) :=
  ⟨(converter_unavailable_amended.1 .typst
      { inPath := false, exitCode := 0, stdout := [], stderr := [] } ['x'] rfl).2.1,
   converter_unavailable_amended.2 .typst
      { inPath := false, exitCode := 0, stdout := [], stderr := [] } ['x']
      (fun _ => ([], none)) rfl⟩

/-! ## The trigger pipeline of src/markup-docx.py (`on_triggered`, 195-228) -/

/-- Startup configuration, parsed once (src/markup-docx.py lines 18-66):
the source format (already normalized, "md" becomes markdown_mmd), the
window-title pattern (defaulted from the application kind when absent)
and the straight-quote flag. -/
structure Config where
  fromFormat : FromFormat
  titlePattern : List Char
  forceStraightQuotes : Bool

/-- Everything the collaborators can answer during one trigger. -/
structure TriggerEnv where
  guard : GuardEnv
  selectionText : List Char
  clipboardText : List Char
  pandoc : PandocEnv
  fragment : Frag
  doc0 : DocState

/-- `str(e)` for the guard errors (src lines 185, 191; the f-string debug
form of line 191 is embedded as plain concatenation). -/
def guardMessage : GuardError → List Char
  | .applicationNotRunning => "Please open a Word document.".toList
  | .wrongForegroundWindow t e =>
    "Foreground window is not Word. title=".toList ++ t ++
      ", expected_title=".toList ++ e

/-- `str(e)` for the converter errors (src lines 133, 142-143): the
ConversionFailed message is exactly the captured diagnostics. -/
def convMessage : ConvError → List Char
  | .converterUnavailable => "Pandoc not found in PATH".toList
  | .conversionFailed diagnostics => diagnostics

/-- `str(e)` for the failed repair assertion (src line 173). -/
def spliceMessage : SpliceError → List Char
  | .unexpectedDocumentState t => "Expected CR, got ".toList ++ t

inductive Outcome where
  | guardFailed (e : GuardError)
  | noInput
  | convFailed (e : ConvError)
  | spliceFailed (st : DocState) (e : SpliceError)
  | done (st : DocState)
deriving DecidableEq, Repr

/-- src/markup-docx.py `on_triggered` (lines 195-228): guard, acquire,
normalize, convert inside a scratch directory, splice; every error except
"no input" is shown in a message box.  The scratch directory is removed
when the `with` block exits, before the exception handler runs. -/
def on_triggered (cfg : Config) (env : TriggerEnv) : List Event × Outcome :=
  match connect_to_word cfg.titlePattern env.guard with
  | .error e => ([.messageBox (guardMessage e)], .guardFailed e)
  | .ok _ =>
    match acquire env.selectionText env.clipboardText with
    | none => ([], .noInput)
    | some (text, inline_block) =>
      let ftext := text_filter cfg.forceStraightQuotes text
      match convert_to_docx cfg.fromFormat env.pandoc ftext with
      | (cEvs, .error ce) =>
        (cEvs ++ [.removeScratch, .messageBox (convMessage ce)], .convFailed ce)
      | (cEvs, .ok _docx) =>
        match insert_into_docx env.doc0 env.fragment inline_block with
        | (st, none) => (cEvs ++ [.insertFileEvt, .removeScratch], .done st)
        | (st, some se) =>
          (cEvs ++ [.insertFileEvt, .removeScratch, .messageBox (spliceMessage se)],
            .spliceFailed st se)

/-- The hotkey handler applied to a sequence of triggers: each trigger
runs `on_triggered` on its own collaborator snapshot; nothing is carried
over from one trigger to the next. -/
def run_triggers (cfg : Config) (envs : List TriggerEnv) : List (List Event × Outcome) :=
  envs.map (on_triggered cfg)

/-! ## Inversion lemmas for the pipeline -/

theorem convert_events (f : FromFormat) (env : PandocEnv) (text : List Char) :
    (convert_to_docx f env text).1 = [.writeFile (sourceName f) text] ∨
    (convert_to_docx f env text).1 = [.writeFile (sourceName f) text, .runPandoc] := by
  unfold convert_to_docx call_pandoc
  by_cases h : is_pandoc_in_path env = false
  · left; simp [h]
  · by_cases hz : env.exitCode ≠ 0
    · right; simp [h, hz]
    · right; simp [h, hz]

theorem convert_ok_inversion {f : FromFormat} {env : PandocEnv} {text p : List Char}
    (h : (convert_to_docx f env text).2 = .ok p) :
    is_pandoc_in_path env = true ∧ env.exitCode = 0 ∧ p = docxName := by
  unfold convert_to_docx call_pandoc at h
  by_cases hp : is_pandoc_in_path env = false
  · simp [hp] at h
  · by_cases hz : env.exitCode = 0
    · simp [hp, hz] at h
      exact ⟨Bool.not_eq_false _ ▸ hp, hz, h.symm⟩
    · simp [hp, hz] at h

theorem insert_not_mem_convert_events (f : FromFormat) (env : PandocEnv)
    (text : List Char) : Event.insertFileEvt ∉ (convert_to_docx f env text).1 := by
  rcases convert_events f env text with h | h <;> rw [h] <;> simp

theorem on_triggered_insert_inversion {cfg : Config} {env : TriggerEnv}
    (h : Event.insertFileEvt ∈ (on_triggered cfg env).1) :
    connect_to_word cfg.titlePattern env.guard = .ok () ∧
    is_pandoc_in_path env.pandoc = true ∧ env.pandoc.exitCode = 0 := by
  unfold on_triggered at h
  rcases hconn : connect_to_word cfg.titlePattern env.guard with e | u
  · rw [hconn] at h
    simp at h
  · rw [hconn] at h
    cases u
    refine ⟨rfl, ?_⟩
    rcases hacq : acquire env.selectionText env.clipboardText with _ | ⟨text, inline_block⟩
    · rw [hacq] at h
      simp at h
    · rw [hacq] at h
      simp only [] at h
      rcases hconv : convert_to_docx cfg.fromFormat env.pandoc
          (text_filter cfg.forceStraightQuotes text) with ⟨cEvs, cRes⟩
      rw [hconv] at h
      rcases cRes with ce | docx
      · have h' : Event.insertFileEvt ∈
            cEvs ++ [Event.removeScratch, Event.messageBox (convMessage ce)] := h
        rcases List.mem_append.mp h' with hm | hm
        · have hc : cEvs = (convert_to_docx cfg.fromFormat env.pandoc
              (text_filter cfg.forceStraightQuotes text)).1 := by rw [hconv]
          exact absurd (hc ▸ hm) (insert_not_mem_convert_events _ _ _)
        · simp at hm
      · have hok : (convert_to_docx cfg.fromFormat env.pandoc
            (text_filter cfg.forceStraightQuotes text)).2 = .ok docx := by
          rw [hconv]
        obtain ⟨h1, h2, _⟩ := convert_ok_inversion hok
        exact ⟨h1, h2⟩

/-! ## Claims C2 and C7 -/

/-- C2: an insertion effect occurs in a trigger only if the Foreground
Session Guard confirmed, for that same trigger's collaborator snapshot,
both the application/active-document identity and the exact title match
(first conjunct); over any sequence of triggers, the mutation of the i-th
trigger depends only on the guard re-running from scratch on the i-th
trigger's own snapshot — no handle or guard result is carried across
triggers (second conjunct). -/
theorem guard_before_mutation :
    (∀ (cfg : Config) (env : TriggerEnv),
      Event.insertFileEvt ∈ (on_triggered cfg env).1 →
      connect_to_word cfg.titlePattern env.guard = .ok ()) ∧
    (∀ (cfg : Config) (envs : List TriggerEnv) (i : Fin envs.length),
      Event.insertFileEvt ∈
        ((run_triggers cfg envs).get (Fin.cast (by simp [run_triggers]) i)).1 →
      connect_to_word cfg.titlePattern (envs.get i).guard = .ok ()) := by
  have base : ∀ (cfg : Config) (env : TriggerEnv),
      Event.insertFileEvt ∈ (on_triggered cfg env).1 →
      connect_to_word cfg.titlePattern env.guard = .ok () :=
    fun _ _ h => (on_triggered_insert_inversion h).1
  refine ⟨base, fun cfg envs i h => ?_⟩
  have hget : (run_triggers cfg envs).get (Fin.cast (by simp [run_triggers]) i)
      = on_triggered cfg (envs.get i) := by
    simp [run_triggers, List.get_eq_getElem, List.getElem_map]
  rw [hget] at h
  exact base cfg (envs.get i) h

/-- Concrete configuration and collaborator snapshots used by witnesses. -/
def cfg0 : Config :=
  { fromFormat := .typst, titlePattern := "\x7bdoc\x7d - Word".toList,
    forceStraightQuotes := false }

def guardEnv0 : GuardEnv :=
  { wordAvailable := true, docName := "Report.docx".toList,
    foregroundTitle := "Report.docx - Word".toList }

def pandocOk : PandocEnv :=
  { inPath := true, exitCode := 0, stdout := [], stderr := [] }

/-- A trigger snapshot whose pipeline runs to completion. -/
def env0 : TriggerEnv :=
  { guard := guardEnv0, selectionText := "x = 1".toList, clipboardText := [],
    pandoc := pandocOk, fragment := { text := ['y', '\r'], style := 2 },
    doc0 := { before := [], after := [], style := 5 } }

/-- A trigger snapshot whose fragment lacks the trailing paragraph break,
so the inline repair assertion fails after insertion. -/
def env1 : TriggerEnv :=
  { env0 with fragment := { text := ['y'], style := 3 } }

theorem guard_before_mutation_witness :
    connect_to_word cfg0.titlePattern env0.guard = .ok () ∧
    connect_to_word cfg0.titlePattern
      (([env0] : List TriggerEnv).get ⟨0, by decide⟩).guard = .ok () :=
  ⟨guard_before_mutation.1 cfg0 env0 (by decide),
   guard_before_mutation.2 cfg0 [env0] ⟨0, by decide⟩ (by decide)⟩

/-- C7: a nonzero pandoc exit status yields ConversionFailed carrying the
combined captured stdout+stderr verbatim (first conjunct); the output
path is returned only on a zero exit status (second conjunct); and the
insertion stage runs only when the exit status was zero (third
conjunct). -/
theorem pandoc_exit_contract :
    (∀ env : PandocEnv, is_pandoc_in_path env = true → env.exitCode ≠ 0 →
      call_pandoc env =
        ([.runPandoc], some (.conversionFailed (env.stdout ++ env.stderr)))) ∧
    (∀ (f : FromFormat) (env : PandocEnv) (text p : List Char),
      (convert_to_docx f env text).2 = .ok p →
      env.exitCode = 0 ∧ p = docxName) ∧
    (∀ (cfg : Config) (env : TriggerEnv),
      Event.insertFileEvt ∈ (on_triggered cfg env).1 →
      env.pandoc.exitCode = 0) := by
  refine ⟨fun env h hz => ?_, fun f env text p h => ?_,
    fun cfg env h => (on_triggered_insert_inversion h).2.2⟩
  · unfold call_pandoc
    simp [h, hz]
  · obtain ⟨_, h2, h3⟩ := convert_ok_inversion h
    exact ⟨h2, h3⟩

/-- A pandoc run that fails with captured diagnostics "ab" / "cd". -/
def pandocFail : PandocEnv :=
  { inPath := true, exitCode := 1, stdout := "ab".toList, stderr := "cd".toList }

theorem pandoc_exit_contract_witness :
    call_pandoc pandocFail =
      ([.runPandoc], some (.conversionFailed ("ab".toList ++ "cd".toList))) ∧
    ((pandocOk.exitCode = 0 ∧ docxName = docxName) ∧
      env0.pandoc.exitCode = 0) :=
  ⟨pandoc_exit_contract.1 pandocFail rfl (by decide),
   ⟨pandoc_exit_contract.2.1 .typst pandocOk ['x'] docxName (by rfl),
    pandoc_exit_contract.2.2 cfg0 env0 (by decide)⟩⟩

/-! ## Claim C8 -/

theorem dropLast_cons_getLast {l : List Char} {c : Char}
    (h : l.getLast? = some c) (r : List Char) :
    l.dropLast ++ c :: r = l ++ r := by
  have hne : l ≠ [] := by rintro rfl; simp at h
  have hg := List.getLast?_eq_getLast l hne
  rw [hg] at h
  have hc : l.getLast hne = c := Option.some_inj.mp h
  calc l.dropLast ++ c :: r = (l.dropLast ++ [c]) ++ r := by simp
    _ = l ++ r := by rw [← hc, List.dropLast_append_getLast hne]

/-- C8: if the inline repair assertion fails after a successful insertion,
the document still contains the whole raw fragment at the insertion point
and the style left by the insertion is not restored (first conjunct), and
the pipeline of `on_triggered` both performed the insertion and shows the
failure in a message box — the failure is surfaced, not silent, and there
is no rollback (second conjunct). -/
theorem repair_failure_semantics :
    (∀ (st : DocState) (frag : Frag) (res : DocState) (err : SpliceError),
      insert_into_docx st frag true = (res, some err) →
      docText res = st.before ++ frag.text ++ st.after ∧
      res.style = frag.style) ∧
    (∀ (cfg : Config) (env : TriggerEnv) (st : DocState) (se : SpliceError),
      (on_triggered cfg env).2 = .spliceFailed st se →
      Event.insertFileEvt ∈ (on_triggered cfg env).1 ∧
      Event.messageBox (spliceMessage se) ∈ (on_triggered cfg env).1) := by
  constructor
  · intro st frag res err h
    unfold insert_into_docx selStyle selInsertFile selMoveLeft selText selDelete
      selSetStyle at h
    rcases hlast : (st.before ++ frag.text).getLast? with _ | c
    · simp only [hlast, ite_true] at h
      rcases hsel : st.after with _ | ⟨a, rest⟩
      · simp [hsel] at h
        obtain ⟨hres, -⟩ := h
        subst hres
        unfold docText
        simp
      · rw [hsel] at h
        by_cases ha : a = '\r'
        · simp [ha] at h
        · rw [if_neg (by simp [ha])] at h
          obtain ⟨hres, _⟩ := Prod.mk.injEq .. ▸ h
          have hnil : st.before ++ frag.text = [] := List.getLast?_eq_none_iff.mp hlast
          subst hres
          unfold docText
          simp [hnil, hsel]
    · simp only [hlast, ite_true] at h
      by_cases hc : c = '\r'
      · simp [hc] at h
      · rw [if_neg (by simp [hc])] at h
        obtain ⟨hres, _⟩ := Prod.mk.injEq .. ▸ h
        subst hres
        unfold docText
        simp only []
        rw [dropLast_cons_getLast hlast st.after]
        simp
  · intro cfg env st se h
    rcases hconn : connect_to_word cfg.titlePattern env.guard with e | u
    · simp [on_triggered, hconn] at h
    · cases u
      rcases hacq : acquire env.selectionText env.clipboardText with _ | ⟨text, inline⟩
      · simp [on_triggered, hconn, hacq] at h
      · rcases hconv : convert_to_docx cfg.fromFormat env.pandoc
            (text_filter cfg.forceStraightQuotes text) with ⟨cEvs, cRes⟩
        rcases cRes with ce | docx
        · simp [on_triggered, hconn, hacq, hconv] at h
        · rcases hins : insert_into_docx env.doc0 env.fragment inline with ⟨st2, sErr⟩
          rcases sErr with _ | se2
          · simp [on_triggered, hconn, hacq, hconv, hins] at h
          · have hh : st = st2 ∧ se = se2 := by
              have := h
              simp [on_triggered, hconn, hacq, hconv, hins] at this
              exact ⟨this.1.symm, this.2.symm⟩
            obtain ⟨rfl, rfl⟩ := hh
            constructor <;> simp [on_triggered, hconn, hacq, hconv, hins]

theorem repair_failure_semantics_witness :
    docText { before := [], after := ['y'], style := 3 } = ['y'] ∧
    ({ before := [], after := ['y'], style := 3 } : DocState).style = 3 ∧
    Event.insertFileEvt ∈ (on_triggered cfg0 env1).1 ∧
    Event.messageBox (spliceMessage (.unexpectedDocumentState ['y'])) ∈
      (on_triggered cfg0 env1).1 := by
  have h1 := repair_failure_semantics.1 { before := [], after := [], style := 5 }
    { text := ['y'], style := 3 } { before := [], after := ['y'], style := 3 }
    (.unexpectedDocumentState ['y']) (by decide)
  have h2 := repair_failure_semantics.2 cfg0 env1
    { before := [], after := ['y'], style := 3 }
    (.unexpectedDocumentState ['y']) (by decide)
  exact ⟨by simpa using h1.1, h1.2, h2.1, h2.2⟩

/-! ## The trigger pipeline of src/main.py (`on_triggered`, lines 128-156) -/

/-- Collaborator snapshot for one src/main.py trigger.  That revision has
no Foreground Session Guard: it dispatches Word and proceeds. -/
structure MainEnv where
  fromFormat : FromFormat
  selectionText : List Char
  clipboardText : List Char
  pandoc : PandocEnv
  fragment : Frag
  doc0 : DocState

/-- src/main.py `insert_into_word` (lines 146-153): copy the converted
fragment file into the user's Downloads folder, then run
`insert_into_docx`.  Returns the events performed and the splice error,
if any (the document-state evolution is `insert_into_docx` itself). -/
def main_insert_into_word (doc0 : DocState) (inline_block : Bool) (frag : Frag)
    (_docx_file : List Char) : List Event × Option SpliceError :=
  ([.copyToDownloads, .insertFileEvt], (insert_into_docx doc0 frag inline_block).2)

inductive MainOutcome where
  | noInput
  | convFailed (e : ConvError)
  | finished (sErr : Option SpliceError)
deriving DecidableEq, Repr

/-- src/main.py `on_triggered` (lines 128-156): acquire (selection, then
clipboard), convert — there is no text normalization and no guard in this
revision — and insert via the `insert_into_word` continuation running
inside the scratch-directory scope. -/
def main_on_triggered (env : MainEnv) : List Event × MainOutcome :=
  match acquire env.selectionText env.clipboardText with
  | none => ([], .noInput)
  | some (text, inline_block) =>
    match main_convert_to_docx env.fromFormat env.pandoc text
        (fun docx => main_insert_into_word env.doc0 inline_block env.fragment docx) with
    | (evs, .error e) => (evs, .convFailed e)
    | (evs, .ok sErr) => (evs, .finished sErr)

/-! ## Claim C10 -/

/-- C10: in src/main.py, every run that reaches the insertion stage first
copies the converted fragment into the Downloads folder: the full effect
trace writes the staging file, runs pandoc, copies to Downloads, inserts,
and removes the scratch directory — and nothing removes the Downloads
copy.  The copy-then-insert pair sits in the trace regardless of whether
the splice itself subsequently succeeds or fails. -/
theorem downloads_copy_on_insertion :
    ∀ (env : MainEnv) (text : List Char) (inline_block : Bool),
      acquire env.selectionText env.clipboardText = some (text, inline_block) →
      is_pandoc_in_path env.pandoc = true →
      env.pandoc.exitCode = 0 →
      (main_on_triggered env).1 =
        [.writeFile (sourceName env.fromFormat) text, .runPandoc,
          .copyToDownloads, .insertFileEvt, .removeScratch] ∧
      List.IsInfix [Event.copyToDownloads, Event.insertFileEvt]
        (main_on_triggered env).1 := by
  intro env text inline_block hacq hp hz
  have htr : (main_on_triggered env).1 =
      [.writeFile (sourceName env.fromFormat) text, .runPandoc,
        .copyToDownloads, .insertFileEvt, .removeScratch] := by
    unfold main_on_triggered
    rw [hacq]
    unfold main_convert_to_docx main_call_pandoc main_insert_into_word
    simp [hp, hz]
  refine ⟨htr, ?_⟩
  rw [htr]
  exact ⟨[Event.writeFile (sourceName env.fromFormat) text, Event.runPandoc],
    [Event.removeScratch], rfl⟩

/-- A src/main.py trigger snapshot whose fragment lacks the trailing
paragraph break, so the splice fails after the Downloads copy. -/
def menv0 : MainEnv :=
  { fromFormat := .typst, selectionText := "x = 1".toList, clipboardText := [],
    pandoc := pandocOk, fragment := { text := ['y'], style := 3 },
    doc0 := { before := [], after := [], style := 5 } }

theorem downloads_copy_on_insertion_witness :
    (main_on_triggered menv0).1 =
      [.writeFile (sourceName menv0.fromFormat) ("x = 1".toList), .runPandoc,
        .copyToDownloads, .insertFileEvt, .removeScratch] ∧
    List.IsInfix [Event.copyToDownloads, Event.insertFileEvt]
      (main_on_triggered menv0).1 :=
  downloads_copy_on_insertion menv0 ("x = 1".toList) true (by decide) rfl rfl
